import Mathlib

/-!
# Verification of the collaborative whiteboard synchronization core

Shallow embedding of the collaborative-whiteboard client
(`src/hooks/useWhiteboard.ts`) and the stateless relay server.

Modelling conventions:
* Stacks (`undo`/`redo` history) are Lean lists with the *top at the head*;
  the source uses JS arrays with `push`/`pop` at the end, which is the same
  stack discipline.
* A full-document JSON serialization (`JSON.stringify(canvas.toJSON(...))`)
  is modelled as the list of serialized objects; textual identity of two
  serializations corresponds to structural equality of these lists
  (`JSON.stringify` is deterministic and injective on the serialized data).
* The rendering engine (fabric) is an external collaborator, modelled at its
  interface boundary: `canvas.add`/`canvas.remove` append/delete an object
  and synchronously fire the registered `object:added` / `object:removed`
  listeners; `canvas.clear()` removes the objects in array order and its
  internal removes fire the `object:removed` listener once per object;
  `loadFromJSON` is `clear()` followed by adding each deserialized object,
  firing `object:added` per added object (so the listener cascade — the
  eraser-tool re-broadcast included — runs during restores and clears);
  hit-testing (`containsPoint`) is modelled by giving each object the set
  of points it contains.
* Randomly generated ids (`Math.random().toString(36).substr(2, 9)`) and
  decoded media are passed in as explicit parameters.
* Purely presentational fields (`selectable`, `evented`, cursors, zoom,
  lock flags, `objectCaching`) and render calls are not modelled: no claim
  mentions them and they never feed back into document state, history, or
  the wire protocol.
-/

/-- A point on the drawing surface (scene coordinates). -/
structure Point where
  x : Int
  y : Int
deriving DecidableEq, Repr

/-- A drawable entity of the Object Model, as held by a client's canvas.
Mirrors the fabric object as used by `useWhiteboard.ts`: the custom `id`
property (absent on transient artifacts), the fabric `type`, position,
an opaque style/geometry payload, `globalCompositeOperation` (eraser paths
carry `destination-out`), the ripple marker, the text-editing flag, the
local-only `remote` marker, and — at the rendering engine's interface
boundary — the set of points the object contains for hit-testing. -/
structure CanvasObject where
  id : Option String
  typ : String
  left : Int
  top : Int
  payload : String
  gco : String
  isRipple : Bool
  isEditing : Bool
  remote : Bool
  hitPoints : List Point
deriving DecidableEq, Repr

/-- The serialized form of one object, as produced by
`toJSON(['id', 'globalCompositeOperation', 'objectCaching'])`: the standard
geometry/style data plus the custom `id`; the `remote` marker, the ripple
marker and runtime editing state are not serialized. -/
structure SerializedObject where
  id : Option String
  typ : String
  left : Int
  top : Int
  payload : String
  gco : String
  hitPoints : List Point
deriving DecidableEq, Repr

/-- A full-document snapshot: the serialization of the whole Object Model
(`JSON.stringify(canvas.toJSON([...]))`), modelled as the list of
serialized objects. -/
abbrev Snapshot := List SerializedObject

/-- Serialize one object (drops `remote`, `isRipple`, `isEditing`). -/
def serializeObj (o : CanvasObject) : SerializedObject :=
  { id := o.id, typ := o.typ, left := o.left, top := o.top,
    payload := o.payload, gco := o.gco, hitPoints := o.hitPoints }

/-- Serialize the whole Object Model into a snapshot. -/
def serializeCanvas (objs : List CanvasObject) : Snapshot :=
  objs.map serializeObj

/-- Reconstruct an object from its serialized payload (fabric
`enlivenObjects` / `loadFromJSON`): non-serialized local markers come back
at their defaults (`remote`, `isRipple`, `isEditing` all false). -/
def deserializeObj (d : SerializedObject) : CanvasObject :=
  { id := d.id, typ := d.typ, left := d.left, top := d.top,
    payload := d.payload, gco := d.gco,
    isRipple := false, isEditing := false, remote := false,
    hitPoints := d.hitPoints }

/-- Restore a whole Object Model from a snapshot. -/
def loadSnap (snap : Snapshot) : List CanvasObject :=
  snap.map deserializeObj

/-- The serialization used by the `request-sync` responder
(`fabricCanvas.toJSON()` with no `propertiesToInclude`): like
`serializeObj` but the custom `id` property is not included. -/
def serializeSync (objs : List CanvasObject) : Snapshot :=
  objs.map (fun o => serializeObj { o with id := none })

/-- One replicated mutation as carried in a `canvas-event` wire message
(`type ∈ {object:added, object:removed, clear}`). -/
inductive CanvasMsg where
  | added (id : String) (data : SerializedObject)
  | removed (id : String)
  | cleared
deriving DecidableEq, Repr

/-- An outgoing `canvas-event` emission (`socket.emit('canvas-event', ...)`)
tagged with the room. -/
structure Emission where
  room : String
  msg : CanvasMsg
deriving DecidableEq, Repr

/-- Per-client state of the `useWhiteboard` hook: the fabric Object Model,
the history stacks (`historyRef`, top of stack at the head), the
re-entrancy guard (`isRestoringRef`), the clipboard (`clipboardRef`), the
current fabric selection, the role flag, the active tool
(`activeToolRef`), the eraser drag flag (`isEraserDraggingRef`), the room,
and the canvas dimensions. -/
structure ClientState where
  objects : List CanvasObject
  undoStack : List Snapshot
  redoStack : List Snapshot
  isRestoring : Bool
  clipboard : Option CanvasObject
  selected : List CanvasObject
  isReadOnly : Bool
  activeTool : String
  isEraserDragging : Bool
  roomId : String
  canvasWidth : Int
  canvasHeight : Int
deriving DecidableEq, Repr

/-- `saveHistory` (useWhiteboard.ts lines 46-63): no-op while restoring;
captures the full-document snapshot; returns early — touching nothing —
when it is textually identical to the top of `undo`; otherwise pushes it
onto `undo` and clears `redo`. -/
def saveHistory (s : ClientState) : ClientState :=
  if s.isRestoring then s
  else if s.undoStack.head? = some (serializeCanvas s.objects) then s
  else { s with undoStack := serializeCanvas s.objects :: s.undoStack,
                redoStack := [] }

/-- The `object:added` canvas listener (lines 129-138): records history
for non-remote additions (the presentation-mode adjustments it also makes
are not modelled). -/
def onObjectAdded (s : ClientState) (o : CanvasObject) : ClientState :=
  if o.remote then s else saveHistory s

/-- `canvas.add(obj)`: appends the object (topmost) and synchronously fires
the `object:added` listener. -/
def canvasAdd (s : ClientState) (o : CanvasObject) : ClientState :=
  onObjectAdded { s with objects := s.objects ++ [o] } o

/-- The `object:removed` canvas listener (lines 139-148): records history
for non-remote removals; when the eraser tool is active, re-broadcasts the
removal of a non-remote object that has an id. -/
def onObjectRemoved (s : ClientState) (o : CanvasObject) :
    ClientState × List Emission :=
  let s1 := if o.remote then s else saveHistory s
  let evs :=
    if s.activeTool = "eraser" then
      match o.id with
      | some i => if o.remote then [] else [⟨s.roomId, .removed i⟩]
      | none => []
    else []
  (s1, evs)

/-- `canvas.remove(obj)`: deletes the object instance and synchronously
fires the `object:removed` listener (the listener runs after the object
has left the model, as in fabric). -/
def canvasRemove (s : ClientState) (o : CanvasObject) :
    ClientState × List Emission :=
  onObjectRemoved { s with objects := s.objects.erase o } o

/-- The per-object emission of the `object:removed` canvas listener, as a
function of the active tool and the room: under the eraser tool a
non-remote object with an id is re-broadcast as `object:removed`. This is
the emission component of `onObjectRemoved`, used to state what listener
cascades (erase samples, `canvas.clear`, restores) send to the relay. -/
def removalBroadcast (tool room : String) (o : CanvasObject) :
    List Emission :=
  if tool = "eraser" then
    match o.id with
    | some i => if o.remote then [] else [⟨room, .removed i⟩]
    | none => []
  else []

/-- `canvas.clear()`: discards the selection and removes every object in
array order; each internal remove fires the `object:removed` listener, so
the per-object history recording and the eraser-tool re-broadcast run
once per object. -/
def canvasClear (s : ClientState) : ClientState × List Emission :=
  s.objects.foldl
    (fun acc o =>
      let r := canvasRemove acc.1 o
      (r.1, acc.2 ++ r.2))
    ({ s with selected := [] }, [])

/-- The add phase of `loadFromJSON`: each deserialized object is added via
`canvas.add`, firing the `object:added` listener per object (its history
recording is suppressed while the restore guard is up). -/
def canvasLoadObjects (s : ClientState) (objs : List CanvasObject) :
    ClientState :=
  objs.foldl canvasAdd s

/-- `canvas.loadFromJSON(snap)`: `clear()` — with its per-object
`object:removed` listener cascade — followed by adding each deserialized
object. -/
def loadFromJSON (s : ClientState) (snap : Snapshot) :
    ClientState × List Emission :=
  let r := canvasClear s
  (canvasLoadObjects r.1 (loadSnap snap), r.2)

/-- The client's `canvas-event` socket handler (lines 231-250).
`object:added`: reconstruct the object, assign the transmitted id, stamp
it `remote = true`, and `canvas.add` it. `object:removed`: remove every
object whose id matches (each removal fires the `object:removed`
listener). `clear`: `canvas.clear()`, whose internal removes fire the
`object:removed` listener per object. -/
def applyCanvasEvent (s : ClientState) (m : CanvasMsg) :
    ClientState × List Emission :=
  match m with
  | .added id data =>
      let obj := { deserializeObj data with id := some id, remote := true }
      (canvasAdd s obj, [])
  | .removed id =>
      let toRemove := s.objects.filter (fun o => o.id = some id)
      toRemove.foldl
        (fun acc o =>
          let r := canvasRemove acc.1 o
          (r.1, acc.2 ++ r.2))
        (s, [])
  | .cleared => canvasClear s

/-- `undo` (lines 1380-1408): no-op unless the `undo` stack holds more
than the sentinel snapshot; otherwise raises the re-entrancy guard
(`isRestoringRef.current = true`, suppressing the listeners' history
recording), pops the current top onto `redo` and restores the Object
Model from the new top via `loadFromJSON` — whose internal `clear()`
fires the `object:removed` listener for each pre-restore object, so the
unguarded eraser-tool branch re-broadcasts those removals — and finally
releases the guard. -/
def undo (s : ClientState) : ClientState × List Emission :=
  match s.undoStack with
  | current :: prev :: rest =>
      let s1 := { s with isRestoring := true,
                         undoStack := prev :: rest,
                         redoStack := current :: s.redoStack }
      let r := loadFromJSON s1 prev
      ({ r.1 with isRestoring := false }, r.2)
  | _ => (s, [])

/-- `redo` (lines 1410-1435): no-op on an empty `redo` stack; otherwise
raises the re-entrancy guard, pops the next snapshot onto `undo` and
restores the Object Model from it via `loadFromJSON` (same internal
`object:removed` listener cascade as `undo`), then releases the guard. -/
def redo (s : ClientState) : ClientState × List Emission :=
  match s.redoStack with
  | next :: rest =>
      let s1 := { s with isRestoring := true,
                         undoStack := next :: s.undoStack,
                         redoStack := rest }
      let r := loadFromJSON s1 next
      ({ r.1 with isRestoring := false }, r.2)
  | [] => (s, [])

/-- A freshly created document (lines 111-114): empty Object Model, the
`undo` stack seeded with the initial empty snapshot, empty `redo`. -/
def initialClient (readOnly : Bool) (tool room : String) (w h : Int) :
    ClientState :=
  { objects := [], undoStack := [serializeCanvas []], redoStack := [],
    isRestoring := false, clipboard := none, selected := [],
    isReadOnly := readOnly, activeTool := tool, isEraserDragging := false,
    roomId := room, canvasWidth := w, canvasHeight := h }

/-- Eligibility test of the eraser branches (lines 299, 325): the object
has an `id`, is not a ripple artifact, and does not carry
`globalCompositeOperation = 'destination-out'`. -/
def eligible (o : CanvasObject) : Bool :=
  o.id.isSome && !o.isRipple && o.gco != "destination-out"

/-- Hit test at the rendering engine's interface boundary
(`obj.containsPoint(pointer)`). -/
def containsPoint (o : CanvasObject) (p : Point) : Bool :=
  p ∈ o.hitPoints

/-- An object removed and re-broadcast by one eraser sample: eligible and
under the pointer. -/
def scrubHit (p : Point) (o : CanvasObject) : Bool :=
  eligible o && containsPoint o p

/-- One iteration of the scrubber's top-down loop (lines 323-333): if the
object is eligible and contains the pointer, emit `object:removed` with
its id and `canvas.remove` it (which fires the `object:removed` listener
in turn); otherwise leave everything unchanged. -/
def scrubStep (p : Point) (acc : ClientState × List Emission)
    (o : CanvasObject) : ClientState × List Emission :=
  if scrubHit p o then
    let direct : List Emission :=
      match o.id with
      | some i => [⟨acc.1.roomId, .removed i⟩]
      | none => []
    let r := canvasRemove acc.1 o
    (r.1, acc.2 ++ direct ++ r.2)
  else acc

/-- `handleScrubberMove` (lines 312-336): only acts for the eraser tool;
first syncs the drag flag with the mouse-button state, then — while
dragging — walks the object list top-down (most recently added first) and
erases every eligible object under the pointer. -/
def handleScrubberMove (s : ClientState) (buttons : Nat) (p : Point) :
    ClientState × List Emission :=
  if s.activeTool = "eraser" then
    let dragging :=
      if buttons = 1 then true
      else if buttons = 0 then false
      else s.isEraserDragging
    let s0 := { s with isEraserDragging := dragging }
    if dragging then s0.objects.reverse.foldl (scrubStep p) (s0, [])
    else (s0, [])
  else (s, [])

/-- The eraser `mouse:down` branch (lines 281-306): finds the topmost
object under the point (manual top-down fallback when fabric supplies no
target) and, if it is eligible, broadcasts its removal, removes it and
saves history. Only the first hit is removed here. -/
def eraserMouseDown (s : ClientState) (p : Point) :
    ClientState × List Emission :=
  if s.activeTool = "eraser" then
    let s0 := { s with isEraserDragging := true }
    match s0.objects.reverse.find? (fun o => containsPoint o p) with
    | some target =>
        if eligible target then
          let direct : List Emission :=
            match target.id with
            | some i => [⟨s0.roomId, .removed i⟩]
            | none => []
          let r := canvasRemove s0 target
          (saveHistory r.1, direct ++ r.2)
        else (s0, [])
    | none => (s0, [])
  else (s, [])

/-- Clone an object for the clipboard / duplication
(`obj.clone(['id', 'globalCompositeOperation', 'objectCaching'])`): the
listed custom properties — in particular `id` — survive, while the
non-serialized local markers (`remote`, `isRipple`, editing state) do
not. -/
def cloneObj (o : CanvasObject) : CanvasObject :=
  { o with remote := false, isRipple := false, isEditing := false }

/-- `c.width || 400` — fabric dimension with the JS falsy fallback. -/
def dimOr400 (w : Int) : Int := if w = 0 then 400 else w

/-- `addShape` (lines 1210-1280): read-only guard, then builds a square,
circle or triangle (any other type yields no shape) centered on the
canvas, adds it, selects it, broadcasts `object:added` and saves history.
The opaque style payload stands for the fill/stroke/dash attributes. -/
def addShape (s : ClientState) (shapeType : String) (stylePayload : String)
    (freshId : String) (hitPts : List Point) :
    ClientState × List Emission :=
  if s.isReadOnly then (s, [])
  else
    let fabricType :=
      if shapeType = "square" then some "rect"
      else if shapeType = "circle" then some "circle"
      else if shapeType = "triangle" then some "triangle"
      else none
    match fabricType with
    | none => (s, [])
    | some ft =>
        let shape : CanvasObject :=
          { id := some freshId, typ := ft,
            left := dimOr400 s.canvasWidth / 2,
            top := dimOr400 s.canvasHeight / 2,
            payload := stylePayload, gco := "source-over",
            isRipple := false, isEditing := false, remote := false,
            hitPoints := hitPts }
        let s1 := canvasAdd s shape
        let s2 := { s1 with selected := [shape] }
        (saveHistory s2, [⟨s.roomId, .added freshId (serializeObj shape)⟩])

/-- `addText` (lines 1282-1344): read-only guard, then creates an `i-text`
object centered on the canvas, adds it, selects it and enters editing
mode, broadcasts `object:added` and saves history. The opaque style
payload stands for the font/fill attributes. -/
def addText (s : ClientState) (stylePayload : String) (freshId : String)
    (hitPts : List Point) : ClientState × List Emission :=
  if s.isReadOnly then (s, [])
  else
    let text : CanvasObject :=
      { id := some freshId, typ := "i-text",
        left := dimOr400 s.canvasWidth / 2,
        top := dimOr400 s.canvasHeight / 2,
        payload := stylePayload, gco := "source-over",
        isRipple := false, isEditing := true, remote := false,
        hitPoints := hitPts }
    let s1 := canvasAdd s text
    let s2 := { s1 with selected := [text] }
    (saveHistory s2, [⟨s.roomId, .added freshId (serializeObj text)⟩])

/-- `deleteSelected` (lines 1346-1378): read-only guard; no-op without a
selection or while a text is being edited; otherwise broadcasts
`object:removed` for each selected object that has an id, removes them
all, clears the selection and saves history. -/
def deleteSelected (s : ClientState) : ClientState × List Emission :=
  if s.isReadOnly then (s, [])
  else if s.selected = [] then (s, [])
  else if s.selected.any (fun o => o.typ = "i-text" && o.isEditing) then
    (s, [])
  else
    let r := s.selected.foldl
      (fun acc o =>
        let direct : List Emission :=
          match o.id with
          | some i => [⟨acc.1.roomId, .removed i⟩]
          | none => []
        let rr := canvasRemove acc.1 o
        (rr.1, acc.2 ++ direct ++ rr.2))
      (s, [])
    (saveHistory { r.1 with selected := [] }, r.2)

/-- `cut` (lines 1502-1529): read-only guard; clones the active object
into the clipboard, then removes every selected object (broadcasting each
removal that has an id), clears the selection and saves history. -/
def cut (s : ClientState) : ClientState × List Emission :=
  if s.isReadOnly then (s, [])
  else
    match s.selected with
    | [] => (s, [])
    | a :: _ =>
        let s0 := { s with clipboard := some (cloneObj a) }
        let r := s0.selected.foldl
          (fun acc o =>
            let direct : List Emission :=
              match o.id with
              | some i => [⟨acc.1.roomId, .removed i⟩]
              | none => []
            let rr := canvasRemove acc.1 o
            (rr.1, acc.2 ++ direct ++ rr.2))
          (s0, [])
        (saveHistory { r.1 with selected := [] }, r.2)

/-- `duplicate` (lines 1531-1577): read-only guard; clones the active
object, offsets it by (+15, +15) under a fresh id, adds and selects it,
broadcasts `object:added` and saves history (the multi-object
`activeSelection` branch is not modelled: the selection model here holds
plain objects). -/
def duplicate (s : ClientState) (freshId : String) :
    ClientState × List Emission :=
  if s.isReadOnly then (s, [])
  else
    match s.selected with
    | [] => (s, [])
    | a :: _ =>
        let cloned : CanvasObject :=
          { cloneObj a with left := a.left + 15, top := a.top + 15,
                            id := some freshId }
        let s1 := canvasAdd s cloned
        let s2 := { s1 with selected := [cloned] }
        (saveHistory s2,
         [⟨s.roomId, .added freshId (serializeObj cloned)⟩])

/-- `copy` (lines 1437-1452): clones the active object into the
clipboard; nothing else changes and nothing is emitted. -/
def copy (s : ClientState) : ClientState × List Emission :=
  match s.selected with
  | [] => (s, [])
  | a :: _ => ({ s with clipboard := some (cloneObj a) }, [])

/-- The clone inserted by `paste`: the clipboard object offset by
(+20, +20) and stamped with a freshly generated id (lines 1462-1470). -/
def pasteClone (clip : CanvasObject) (freshId : String) : CanvasObject :=
  { cloneObj clip with left := clip.left + 20, top := clip.top + 20,
                       id := some freshId }

/-- `paste` (lines 1454-1500): no-op only when the clipboard is empty —
there is no `isReadOnly` check. Clones the clipboard object with a fresh
id at (+20, +20), discards the current selection, adds and selects the
clone, broadcasts `object:added` and saves history (the
`activeSelection` branch is not modelled: the clipboard holds one
object). -/
def paste (s : ClientState) (freshId : String) :
    ClientState × List Emission :=
  match s.clipboard with
  | none => (s, [])
  | some clip =>
      let clonedObj := pasteClone clip freshId
      let s0 := { s with selected := [] }
      let s1 := canvasAdd s0 clonedObj
      let s2 := { s1 with selected := [clonedObj] }
      (saveHistory s2,
       [⟨s.roomId, .added freshId (serializeObj clonedObj)⟩])

/-- `uploadImage` (lines 1602-1970): read-only guard at entry; the media
decode layer (PDF/video/audio/image — out of scope) produces a drawable
object, which every branch then stamps with a fresh id, adds, selects,
broadcasts as `object:added` and records in history. The decoded object
is passed in explicitly. -/
def uploadImage (s : ClientState) (decoded : CanvasObject)
    (freshId : String) : ClientState × List Emission :=
  if s.isReadOnly then (s, [])
  else
    let img : CanvasObject :=
      { decoded with id := some freshId, remote := false }
    let s1 := canvasAdd s img
    let s2 := { s1 with selected := [img] }
    (saveHistory s2, [⟨s.roomId, .added freshId (serializeObj img)⟩])

/-- `clearCanvas` (lines 1972-1978): read-only guard; empties the model
(`canvas.clear()`, whose internal removes fire the `object:removed`
listener per object — no restore guard is up here), then broadcasts
`clear` and saves history. -/
def clearCanvas (s : ClientState) : ClientState × List Emission :=
  if s.isReadOnly then (s, [])
  else
    let r := canvasClear s
    (saveHistory r.1, r.2 ++ [⟨s.roomId, .cleared⟩])

/-- `resetWhiteboard` (lines 1579-1600): read-only guard; empties the
model (`canvas.clear()` with its per-object `object:removed` listener
cascade), resets the history to the single serialization of the now-empty
canvas, empties the clipboard and broadcasts `clear`. -/
def resetWhiteboard (s : ClientState) : ClientState × List Emission :=
  if s.isReadOnly then (s, [])
  else
    let r := canvasClear s
    ({ r.1 with undoStack := [serializeCanvas r.1.objects],
                redoStack := [], clipboard := none },
     r.2 ++ [⟨s.roomId, .cleared⟩])

/-- The reply sent by the `request-sync` handler (lines 200-208):
`sync-state{room, state, targetId}`. -/
structure SyncStateMsg where
  room : String
  state : Snapshot
  targetId : String
deriving DecidableEq, Repr

/-- The client's `request-sync` handler (lines 200-208): a member whose
local role is not read-only answers with its full snapshot
(`fabricCanvas.toJSON()`, id-less default serialization) directed at the
requester; a read-only member stays silent. -/
def handleRequestSync (s : ClientState) (requesterId : String) :
    List SyncStateMsg :=
  if !s.isReadOnly then
    [{ room := s.roomId, state := serializeSync s.objects,
       targetId := requesterId }]
  else []

/-- Relay-server state (server index.ts): the per-room membership
bookkeeping of the socket layer — connection ids grouped by room key. The
relay holds no document state. -/
structure RelayState where
  rooms : List (String × List String)
deriving DecidableEq, Repr

/-- Current members of a room. -/
def roomMembers (st : RelayState) (room : String) : List String :=
  match st.rooms.find? (fun e => e.1 = room) with
  | some e => e.2
  | none => []

/-- A wire event as seen by the relay: a room tag and an otherwise opaque
payload (`interface CanvasEvent { room: string; data: any }` — the relay
never inspects the payload). -/
structure RelayEvent (α : Type) where
  room : String
  data : α
deriving DecidableEq, Repr

/-- The relay's `canvas-event` handler (server index.ts lines 39-42):
`socket.to(event.room).emit('canvas-event', event)` — forwards the event
unchanged to every current member of its room except the sender; stores
nothing and validates nothing (the payload type is opaque). -/
def relayCanvasEvent {α : Type} (st : RelayState) (sender : String)
    (ev : RelayEvent α) : RelayState × List (String × RelayEvent α) :=
  (st,
   ((roomMembers st ev.room).filter (fun m => m ≠ sender)).map
     (fun m => (m, ev)))

/-- The relay's `sync-state` handler (server index.ts lines 44-47):
`io.to(data.targetId).emit('load-state', data.state)` — forwards the
snapshot as a `load-state` message addressed to exactly the connection
named `targetId` (each socket sits in the private room of its own id). -/
def relaySyncState (st : RelayState) (msg : SyncStateMsg) :
    RelayState × List (String × Snapshot) :=
  (st, [(msg.targetId, msg.state)])

/-- One history operation, for reasoning about arbitrary sequences of
`undo()`/`redo()` calls. -/
inductive HistOp where
  | undoOp
  | redoOp
deriving DecidableEq, Repr

/-- Apply a sequence of `undo()`/`redo()` calls to a client. -/
def applyHistOps (s : ClientState) (ops : List HistOp) : ClientState :=
  ops.foldl
    (fun st op =>
      match op with
      | .undoOp => (undo st).1
      | .redoOp => (redo st).1)
    s

/-! ## Concrete fixtures used by counterexamples and witnesses -/

/-- A concrete relay configuration and event used to witness the fan-out
theorem. -/
def relayStEx : RelayState := ⟨[("r", ["a", "b", "c"])]⟩

/-- An opaque concrete wire event for the fan-out witness. -/
def relayEvEx : RelayEvent Nat := ⟨"r", 7⟩

/-- A concrete non-remote rectangle used in counterexamples and
witnesses. -/
def rectEx : CanvasObject :=
  { id := some "a1", typ := "rect", left := 0, top := 0, payload := "p",
    gco := "source-over", isRipple := false, isEditing := false,
    remote := false, hitPoints := [⟨1, 1⟩] }

/-- A concrete serialized payload used in counterexamples and witnesses. -/
def dataEx : SerializedObject :=
  { id := some "x1", typ := "rect", left := 0, top := 0, payload := "p",
    gco := "source-over", hitPoints := [⟨1, 1⟩] }

/-- A concrete freshly created editing client. -/
def freshEx : ClientState := initialClient false "pen" "room1" 800 600

/-- A client whose current snapshot already sits on top of `undo` while
`redo` is non-empty: the state reached right after an `undo()` that was
itself preceded by a recorded mutation. -/
def c4state : ClientState :=
  { objects := [rectEx],
    undoStack := [serializeCanvas [rectEx], []],
    redoStack := [[]],
    isRestoring := false, clipboard := none, selected := [],
    isReadOnly := false, activeTool := "pen", isEraserDragging := false,
    roomId := "room1", canvasWidth := 800, canvasHeight := 600 }

/-- A client whose current snapshot differs from the top of `undo`. -/
def c4stateB : ClientState :=
  { objects := [rectEx],
    undoStack := [[]],
    redoStack := [[]],
    isRestoring := false, clipboard := none, selected := [],
    isReadOnly := false, activeTool := "pen", isEraserDragging := false,
    roomId := "room1", canvasWidth := 800, canvasHeight := 600 }

/-- A concrete read-only client holding an object, a selection and a
clipboard entry. -/
def roState : ClientState :=
  { objects := [rectEx],
    undoStack := [serializeCanvas [rectEx]],
    redoStack := [],
    isRestoring := false, clipboard := some rectEx, selected := [rectEx],
    isReadOnly := true, activeTool := "select", isEraserDragging := false,
    roomId := "room1", canvasWidth := 800, canvasHeight := 600 }

/-- A concrete read-only client with a clipboard entry, for the C10
witness. -/
def roClipState : ClientState :=
  { objects := [],
    undoStack := [serializeCanvas []],
    redoStack := [[]],
    isRestoring := false, clipboard := some rectEx, selected := [],
    isReadOnly := true, activeTool := "select", isEraserDragging := false,
    roomId := "room1", canvasWidth := 800, canvasHeight := 600 }

/-- A client in the one-recorded-mutation configuration: one object, its
snapshot on top of the initial empty snapshot, empty redo. -/
def c3state : ClientState :=
  { objects := [rectEx],
    undoStack := [serializeCanvas [rectEx], serializeCanvas []],
    redoStack := [],
    isRestoring := false, clipboard := none, selected := [],
    isReadOnly := false, activeTool := "pen", isEraserDragging := false,
    roomId := "room1", canvasWidth := 800, canvasHeight := 600 }

/-- The same one-recorded-mutation client with the eraser tool active —
the configuration in which a restore's `object:removed` listener cascade
re-broadcasts removals. -/
def c7state : ClientState :=
  { c3state with activeTool := "eraser" }

/-- The emissions produced for one object by one eraser movement sample:
a hit (eligible, under the pointer) object's removal is broadcast twice
when the object is non-remote — once directly by the sample loop and once
by the `object:removed` canvas listener — and once when it is
remote-flagged; a miss emits nothing. -/
def scrubEmits (room : String) (p : Point) (o : CanvasObject) :
    List Emission :=
  if scrubHit p o then
    match o.id with
    | some i =>
        if o.remote then [⟨room, .removed i⟩]
        else [⟨room, .removed i⟩, ⟨room, .removed i⟩]
    | none => []
  else []

/-- Three distinct eligible, non-remote, overlapping objects for the
erase-under-cursor scenario. -/
def p6 : Point := ⟨5, 5⟩

/-- First of three overlapping objects under `p6`. -/
def objA : CanvasObject :=
  { id := some "a", typ := "path", left := 0, top := 0, payload := "pa",
    gco := "source-over", isRipple := false, isEditing := false,
    remote := false, hitPoints := [p6] }

/-- Second of three overlapping objects under `p6`. -/
def objB : CanvasObject :=
  { objA with id := some "b", payload := "pb" }

/-- Third (topmost) of three overlapping objects under `p6`. -/
def objC : CanvasObject :=
  { objA with id := some "c", payload := "pc" }

/-- A dragging eraser client over the three overlapping objects. -/
def scrubState : ClientState :=
  { objects := [objA, objB, objC],
    undoStack := [serializeCanvas [objA, objB, objC]],
    redoStack := [],
    isRestoring := false, clipboard := none, selected := [],
    isReadOnly := false, activeTool := "eraser", isEraserDragging := true,
    roomId := "r6", canvasWidth := 800, canvasHeight := 600 }

/-! ## Frame lemmas for the history-recording and canvas operations -/

@[simp] theorem saveHistory_objects (s : ClientState) :
    (saveHistory s).objects = s.objects := by
  unfold saveHistory; split <;> [rfl; skip]; split <;> rfl

@[simp] theorem saveHistory_roomId (s : ClientState) :
    (saveHistory s).roomId = s.roomId := by
  unfold saveHistory; split <;> [rfl; skip]; split <;> rfl

@[simp] theorem saveHistory_activeTool (s : ClientState) :
    (saveHistory s).activeTool = s.activeTool := by
  unfold saveHistory; split <;> [rfl; skip]; split <;> rfl

@[simp] theorem saveHistory_isRestoring (s : ClientState) :
    (saveHistory s).isRestoring = s.isRestoring := by
  unfold saveHistory; split <;> [rfl; skip]; split <;> rfl

@[simp] theorem saveHistory_clipboard (s : ClientState) :
    (saveHistory s).clipboard = s.clipboard := by
  unfold saveHistory; split <;> [rfl; skip]; split <;> rfl

@[simp] theorem saveHistory_isReadOnly (s : ClientState) :
    (saveHistory s).isReadOnly = s.isReadOnly := by
  unfold saveHistory; split <;> [rfl; skip]; split <;> rfl

@[simp] theorem canvasRemove_objects (s : ClientState) (o : CanvasObject) :
    (canvasRemove s o).1.objects = s.objects.erase o := by
  unfold canvasRemove onObjectRemoved
  cases o.remote <;> simp

@[simp] theorem canvasRemove_roomId (s : ClientState) (o : CanvasObject) :
    (canvasRemove s o).1.roomId = s.roomId := by
  unfold canvasRemove onObjectRemoved
  cases o.remote <;> simp

@[simp] theorem canvasRemove_activeTool (s : ClientState) (o : CanvasObject) :
    (canvasRemove s o).1.activeTool = s.activeTool := by
  unfold canvasRemove onObjectRemoved
  cases o.remote <;> simp

theorem canvasRemove_emissions_eraser (s : ClientState) (o : CanvasObject)
    (htool : s.activeTool = "eraser") (i : String) (hid : o.id = some i) :
    (canvasRemove s o).2 =
      if o.remote then [] else [⟨s.roomId, .removed i⟩] := by
  unfold canvasRemove onObjectRemoved
  simp [htool, hid]

theorem saveHistory_of_restoring (s : ClientState)
    (h : s.isRestoring = true) : saveHistory s = s := by
  unfold saveHistory
  rw [if_pos h]

theorem canvasRemove_snd (s : ClientState) (o : CanvasObject) :
    (canvasRemove s o).2 =
      removalBroadcast s.activeTool s.roomId o := rfl

theorem canvasClear_foldSpec (tool room : String) :
    ∀ (l : List CanvasObject) (s : ClientState) (evs : List Emission),
      s.objects = l → s.isRestoring = true →
      s.activeTool = tool → s.roomId = room →
      l.foldl
          (fun acc o =>
            let r := canvasRemove acc.1 o
            (r.1, acc.2 ++ r.2))
          (s, evs) =
        ({ s with objects := [] },
         evs ++ l.flatMap (removalBroadcast tool room)) := by
  intro l
  induction l with
  | nil =>
      intro s evs h1 _ _ _
      cases s
      cases h1
      simp
  | cons o t ih =>
      intro s evs h1 h2 h3 h4
      have herase : s.objects.erase o = t := by
        rw [h1]
        exact List.erase_cons_head o t
      have hsv : saveHistory { s with objects := s.objects.erase o } =
          { s with objects := s.objects.erase o } :=
        saveHistory_of_restoring _ (by simpa using h2)
      have hrm : canvasRemove s o =
          ({ s with objects := t }, removalBroadcast tool room o) := by
        unfold canvasRemove onObjectRemoved
        rw [hsv]
        simp [herase, removalBroadcast, h3, h4]
      rw [List.foldl_cons]
      simp only [hrm]
      rw [ih { s with objects := t } (evs ++ removalBroadcast tool room o)
            rfl (by simpa using h2) (by simpa using h3) (by simpa using h4)]
      simp [List.flatMap_cons]

theorem canvasClear_restoring (s : ClientState)
    (h : s.isRestoring = true) :
    canvasClear s =
      ({ s with objects := [], selected := [] },
       s.objects.flatMap (removalBroadcast s.activeTool s.roomId)) := by
  unfold canvasClear
  have hspec := canvasClear_foldSpec s.activeTool s.roomId s.objects
    { s with selected := [] } [] rfl (by simpa using h) rfl rfl
  simpa using hspec

theorem canvasLoadObjects_restoring :
    ∀ (objs : List CanvasObject) (s : ClientState), s.isRestoring = true →
      canvasLoadObjects s objs = { s with objects := s.objects ++ objs } := by
  intro objs
  induction objs with
  | nil =>
      intro s _
      cases s
      simp [canvasLoadObjects]
  | cons o t ih =>
      intro s h
      have hadd : canvasAdd s o = { s with objects := s.objects ++ [o] } := by
        unfold canvasAdd onObjectAdded
        rw [saveHistory_of_restoring _ (by simpa using h)]
        exact ite_self _
      unfold canvasLoadObjects at ih ⊢
      rw [List.foldl_cons, hadd,
          ih { s with objects := s.objects ++ [o] } (by simpa using h)]
      simp

theorem undo_spec (s : ClientState) (current prev : Snapshot)
    (rest : List Snapshot) (hu : s.undoStack = current :: prev :: rest) :
    undo s =
      ({ s with objects := loadSnap prev, selected := [],
                isRestoring := false,
                undoStack := prev :: rest,
                redoStack := current :: s.redoStack },
       s.objects.flatMap (removalBroadcast s.activeTool s.roomId)) := by
  unfold undo loadFromJSON
  simp only [hu]
  rw [canvasClear_restoring _ rfl]
  simp only []
  rw [canvasLoadObjects_restoring (loadSnap prev) _ rfl]
  simp

theorem redo_spec (s : ClientState) (next : Snapshot)
    (rest : List Snapshot) (hr : s.redoStack = next :: rest) :
    redo s =
      ({ s with objects := loadSnap next, selected := [],
                isRestoring := false,
                undoStack := next :: s.undoStack,
                redoStack := rest },
       s.objects.flatMap (removalBroadcast s.activeTool s.roomId)) := by
  unfold redo loadFromJSON
  simp only [hr]
  rw [canvasClear_restoring _ rfl]
  simp only []
  rw [canvasLoadObjects_restoring (loadSnap next) _ rfl]
  simp

theorem removalBroadcast_of_ne_eraser (tool room : String)
    (h : tool ≠ "eraser") (o : CanvasObject) :
    removalBroadcast tool room o = [] := by
  unfold removalBroadcast
  rw [if_neg h]

/-- Claim C1: the client's handler for a replicated `object:added` event
reconstructs the object, stamps it `remote = true` and appends it to the
Object Model; applying the event leaves both history stacks — in
particular the `undo` stack — unchanged, and re-broadcasts nothing. -/
theorem claim_C1_remote_suppression (s : ClientState) (id : String)
    (data : SerializedObject) :
    (applyCanvasEvent s (.added id data)).1.objects =
      s.objects ++ [{ deserializeObj data with id := some id, remote := true }] ∧
    ({ deserializeObj data with
       id := some id, remote := true } : CanvasObject).remote = true ∧
    (applyCanvasEvent s (.added id data)).1.undoStack = s.undoStack ∧
    (applyCanvasEvent s (.added id data)).1.redoStack = s.redoStack ∧
    (applyCanvasEvent s (.added id data)).2 = [] := by
  unfold applyCanvasEvent canvasAdd onObjectAdded
  simp

/-- Claim C7 counterexample: with the eraser tool active during the
restore, `undo()` DOES emit a replication event — restoring past one
recorded mutation broadcasts `object:removed` for the non-remote
id-carrying object cleared by `loadFromJSON`, because the
`object:removed` listener's eraser re-broadcast branch carries no
re-entrancy guard. -/
theorem claim_C7_counterexample :
    (undo c7state).2 = [⟨"room1", .removed "a1"⟩] ∧
    ¬(undo c7state).2 = [] := by
  decide

/-- Claim C7 as amended: `undo()` and `redo()` leave the clipboard, the
role flag, the active tool and the room untouched, and emit no
replication event whenever the active tool is not the eraser; but when
the eraser tool is active during a non-trivial restore, the
`object:removed` listener fired by `loadFromJSON`'s internal clear
re-broadcasts `object:removed` for each non-remote id-carrying object of
the pre-restore Object Model. -/
theorem claim_C7_amended (s : ClientState) :
    (undo s).1.clipboard = s.clipboard ∧
    (redo s).1.clipboard = s.clipboard ∧
    (undo s).1.isReadOnly = s.isReadOnly ∧
    (redo s).1.isReadOnly = s.isReadOnly ∧
    (undo s).1.activeTool = s.activeTool ∧
    (redo s).1.activeTool = s.activeTool ∧
    (undo s).1.roomId = s.roomId ∧
    (redo s).1.roomId = s.roomId ∧
    (s.activeTool ≠ "eraser" → (undo s).2 = [] ∧ (redo s).2 = []) ∧
    (∀ current prev rest, s.undoStack = current :: prev :: rest →
        (undo s).2 =
          s.objects.flatMap (removalBroadcast s.activeTool s.roomId)) ∧
    (∀ next rest, s.redoStack = next :: rest →
        (redo s).2 =
          s.objects.flatMap (removalBroadcast s.activeTool s.roomId)) := by
  have hemp0 : ∀ (l : List CanvasObject), s.activeTool ≠ "eraser" →
      l.flatMap (removalBroadcast s.activeTool s.roomId) = [] := by
    intro l hne
    induction l with
    | nil => rfl
    | cons o t ih =>
        rw [List.flatMap_cons,
            removalBroadcast_of_ne_eraser s.activeTool s.roomId hne o,
            List.nil_append]
        exact ih
  have hU : (undo s).1.clipboard = s.clipboard ∧
      (undo s).1.isReadOnly = s.isReadOnly ∧
      (undo s).1.activeTool = s.activeTool ∧
      (undo s).1.roomId = s.roomId ∧
      ((undo s).2 = [] ∨
        (undo s).2 =
          s.objects.flatMap (removalBroadcast s.activeTool s.roomId)) := by
    rcases hu : s.undoStack with _ | ⟨c, _ | ⟨pv, rest⟩⟩
    · have h : undo s = (s, []) := by unfold undo; rw [hu]
      rw [h]
      exact ⟨rfl, rfl, rfl, rfl, Or.inl rfl⟩
    · have h : undo s = (s, []) := by unfold undo; rw [hu]
      rw [h]
      exact ⟨rfl, rfl, rfl, rfl, Or.inl rfl⟩
    · have h := undo_spec s c pv rest hu
      rw [h]
      exact ⟨rfl, rfl, rfl, rfl, Or.inr rfl⟩
  have hR : (redo s).1.clipboard = s.clipboard ∧
      (redo s).1.isReadOnly = s.isReadOnly ∧
      (redo s).1.activeTool = s.activeTool ∧
      (redo s).1.roomId = s.roomId ∧
      ((redo s).2 = [] ∨
        (redo s).2 =
          s.objects.flatMap (removalBroadcast s.activeTool s.roomId)) := by
    rcases hr : s.redoStack with _ | ⟨n, r⟩
    · have h : redo s = (s, []) := by unfold redo; rw [hr]
      rw [h]
      exact ⟨rfl, rfl, rfl, rfl, Or.inl rfl⟩
    · have h := redo_spec s n r hr
      rw [h]
      exact ⟨rfl, rfl, rfl, rfl, Or.inr rfl⟩
  refine ⟨hU.1, hR.1, hU.2.1, hR.2.1, hU.2.2.1, hR.2.2.1, hU.2.2.2.1,
    hR.2.2.2.1, ?_, ?_, ?_⟩
  · intro hne
    constructor
    · rcases hU.2.2.2.2 with h | h
      · exact h
      · rw [h]
        exact hemp0 s.objects hne
    · rcases hR.2.2.2.2 with h | h
      · exact h
      · rw [h]
        exact hemp0 s.objects hne
  · intro c pv rest hu
    rw [undo_spec s c pv rest hu]
  · intro n r hr
    rw [redo_spec s n r hr]

/-- Witness for the amended C7 at concrete inputs: with the pen tool a
round of `undo`/`redo` emits nothing; with the eraser tool the same
`undo` emits exactly the listener re-broadcasts of the pre-restore
objects. -/
theorem claim_C7_amended_witness :
    (undo c3state).2 = [] ∧ (redo c3state).2 = [] ∧
    (undo c7state).2 =
      c7state.objects.flatMap
        (removalBroadcast c7state.activeTool c7state.roomId) :=
  ⟨((claim_C7_amended c3state).2.2.2.2.2.2.2.2.1 (by decide)).1,
   ((claim_C7_amended c3state).2.2.2.2.2.2.2.2.1 (by decide)).2,
   (claim_C7_amended c7state).2.2.2.2.2.2.2.2.2.1
     (serializeCanvas [rectEx]) (serializeCanvas []) [] rfl⟩


/-- Claim C2: the relay's `canvas-event` handler stores nothing (its room
bookkeeping is unchanged), delivers the event — with its opaque payload
untouched — to exactly the current members of the event's room other than
the sender, and never back to the sender. -/
theorem claim_C2_relay_fanout {α : Type} (st : RelayState) (sender : String)
    (ev : RelayEvent α) :
    (relayCanvasEvent st sender ev).1 = st ∧
    (∀ m : String, (m, ev) ∈ (relayCanvasEvent st sender ev).2 ↔
        m ∈ roomMembers st ev.room ∧ m ≠ sender) ∧
    (∀ d ∈ (relayCanvasEvent st sender ev).2, d.2 = ev) ∧
    sender ∉ ((relayCanvasEvent st sender ev).2).map Prod.fst := by
  refine ⟨rfl, ?_, ?_, ?_⟩
  · intro m
    simp [relayCanvasEvent, List.mem_map, List.mem_filter, and_comm]
  · intro d hd
    simp only [relayCanvasEvent, List.mem_map, List.mem_filter] at hd
    obtain ⟨x, _, hx⟩ := hd
    simp [← hx]
  · simp [relayCanvasEvent, List.mem_map, List.mem_filter]

/-- Witness for C2: in a room with members a, b, c, an event sent by a is
delivered to b, and a does not receive it back. -/
theorem claim_C2_relay_fanout_witness :
    ("b", relayEvEx) ∈ (relayCanvasEvent relayStEx "a" relayEvEx).2 ∧
    "a" ∉ ((relayCanvasEvent relayStEx "a" relayEvEx).2).map Prod.fst :=
  ⟨((claim_C2_relay_fanout relayStEx "a" relayEvEx).2.1 "b").mpr
      ⟨by decide, by decide⟩,
   (claim_C2_relay_fanout relayStEx "a" relayEvEx).2.2.2⟩

/-- Claim C5: a member answers `request-sync{requesterId}` with
`sync-state{room, state, targetId := requesterId}` exactly when its local
role is not read-only (read-only members never respond), and the relay
forwards each `sync-state` as a `load-state` delivered to exactly the
client named by `targetId` and to no other client, keeping no state. -/
theorem claim_C5_sync_responder_policy :
    (∀ (s : ClientState) (req : String),
        handleRequestSync s req ≠ [] ↔ s.isReadOnly = false) ∧
    (∀ (s : ClientState) (req : String), s.isReadOnly = false →
        handleRequestSync s req =
          [⟨s.roomId, serializeSync s.objects, req⟩]) ∧
    (∀ (s : ClientState) (req : String), s.isReadOnly = true →
        handleRequestSync s req = []) ∧
    (∀ (st : RelayState) (msg : SyncStateMsg),
        (relaySyncState st msg).1 = st ∧
        (relaySyncState st msg).2 = [(msg.targetId, msg.state)] ∧
        ∀ d ∈ (relaySyncState st msg).2, d.1 = msg.targetId) := by
  refine ⟨?_, ?_, ?_, ?_⟩
  · intro s req
    cases h : s.isReadOnly <;> simp [handleRequestSync, h]
  · intro s req h
    simp [handleRequestSync, h]
  · intro s req h
    simp [handleRequestSync, h]
  · intro st msg
    refine ⟨rfl, rfl, ?_⟩
    intro d hd
    simp only [relaySyncState, List.mem_singleton] at hd
    simp [hd]

/-- Claim C8 counterexample: applying the same replicated
`object:added{id, data}` twice does duplicate drawable content — the
second apply for the already-present id inserts a second copy, so the
Object Model holds two objects where one apply leaves one. -/
theorem claim_C8_counterexample :
    (applyCanvasEvent
        (applyCanvasEvent freshEx (.added "x1" dataEx)).1
        (.added "x1" dataEx)).1.objects.length = 2 ∧
    (applyCanvasEvent freshEx (.added "x1" dataEx)).1.objects.length = 1 ∧
    (applyCanvasEvent
        (applyCanvasEvent freshEx (.added "x1" dataEx)).1
        (.added "x1" dataEx)).1.objects ≠
      (applyCanvasEvent freshEx (.added "x1" dataEx)).1.objects := by
  decide

/-- Claim C8 as amended: the receive path of `object:added` simply
inserts — applying the same event twice appends two copies of the
reconstructed object, so the count of objects carrying the transmitted id
grows by two; an id collision duplicates rather than replaces. -/
theorem claim_C8_amended (s : ClientState) (id : String)
    (data : SerializedObject) :
    (applyCanvasEvent (applyCanvasEvent s (.added id data)).1
        (.added id data)).1.objects =
      s.objects ++
        [{ deserializeObj data with id := some id, remote := true },
         { deserializeObj data with id := some id, remote := true }] ∧
    ((applyCanvasEvent (applyCanvasEvent s (.added id data)).1
        (.added id data)).1.objects.countP (fun o => o.id = some id)) =
      s.objects.countP (fun o => o.id = some id) + 2 := by
  constructor
  · unfold applyCanvasEvent canvasAdd onObjectAdded
    simp
  · unfold applyCanvasEvent canvasAdd onObjectAdded
    simp [List.countP_append, List.countP_cons]

/-- Claim C4 counterexample: when the captured snapshot is textually
identical to the top of `undo`, `saveHistory` returns early and does NOT
clear the `redo` stack — the state (non-empty `redo` included) is
unchanged, contradicting "always clears `redo`". -/
theorem claim_C4_counterexample :
    saveHistory c4state = c4state ∧
    c4state.undoStack.head? = some (serializeCanvas c4state.objects) ∧
    c4state.redoStack ≠ [] ∧
    (saveHistory c4state).redoStack = [[]] := by
  decide

/-- Claim C4 as amended: outside a restore, `saveHistory` clears `redo`
exactly when it appends — when the captured snapshot is textually
identical to the top of `undo` it returns with the whole state, `redo`
included, unchanged; otherwise it pushes the snapshot and clears `redo`.
Hence it is idempotent: two calls with no intervening model change append
at most one entry to `undo`. -/
theorem claim_C4_amended (s : ClientState) (h : s.isRestoring = false) :
    (s.undoStack.head? = some (serializeCanvas s.objects) →
        saveHistory s = s) ∧
    (s.undoStack.head? ≠ some (serializeCanvas s.objects) →
        saveHistory s =
          { s with undoStack := serializeCanvas s.objects :: s.undoStack,
                   redoStack := [] }) ∧
    saveHistory (saveHistory s) = saveHistory s := by
  refine ⟨?_, ?_, ?_⟩
  · intro he
    simp [saveHistory, h, he]
  · intro hne
    simp [saveHistory, h, hne]
  · by_cases he : s.undoStack.head? = some (serializeCanvas s.objects)
    · simp [saveHistory, h, he]
    · simp [saveHistory, h, he]

/-- Witness for the amended C4 at concrete inputs: the identical-snapshot
call is the identity, the differing-snapshot call pushes and clears
`redo`, and a repeated call changes nothing further. -/
theorem claim_C4_amended_witness :
    saveHistory c4state = c4state ∧
    saveHistory c4stateB =
      { c4stateB with
          undoStack := serializeCanvas c4stateB.objects :: c4stateB.undoStack,
          redoStack := [] } ∧
    saveHistory (saveHistory c4state) = saveHistory c4state :=
  ⟨(claim_C4_amended c4state rfl).1 (by decide),
   (claim_C4_amended c4stateB rfl).2.1 (by decide),
   (claim_C4_amended c4state rfl).2.2⟩

/-- Claim C9: with `isReadOnly = true`, each of `addShape`, `addText`,
`deleteSelected`, `cut`, `duplicate`, `uploadImage`, `clearCanvas` and
`resetWhiteboard` is a guarded no-op: the returned state is the input
state (Object Model, history stacks and clipboard untouched) and no
`canvas-event` is emitted. -/
theorem claim_C9_read_only_guard (s : ClientState)
    (h : s.isReadOnly = true) (shapeType stylePayload freshId : String)
    (hitPts : List Point) (decoded : CanvasObject) :
    addShape s shapeType stylePayload freshId hitPts = (s, []) ∧
    addText s stylePayload freshId hitPts = (s, []) ∧
    deleteSelected s = (s, []) ∧
    cut s = (s, []) ∧
    duplicate s freshId = (s, []) ∧
    uploadImage s decoded freshId = (s, []) ∧
    clearCanvas s = (s, []) ∧
    resetWhiteboard s = (s, []) := by
  unfold addShape addText deleteSelected cut duplicate uploadImage
    clearCanvas resetWhiteboard
  simp [h]

/-- Witness for C9 at a concrete read-only client. -/
theorem claim_C9_read_only_guard_witness :
    addShape roState "square" "st" "id9" [] = (roState, []) ∧
    addText roState "st" "id9" [] = (roState, []) ∧
    deleteSelected roState = (roState, []) ∧
    cut roState = (roState, []) ∧
    duplicate roState "id9" = (roState, []) ∧
    uploadImage roState rectEx "id9" = (roState, []) ∧
    clearCanvas roState = (roState, []) ∧
    resetWhiteboard roState = (roState, []) :=
  claim_C9_read_only_guard roState rfl "square" "st" "id9" [] rectEx

/-- Claim C10: `paste` performs no `isReadOnly` check — for every client
(the role flag is arbitrary, and the witness instantiates it to `true`)
with a non-empty clipboard, it inserts the clipboard clone offset by
(+20, +20) under the freshly generated id, emits `object:added` for it,
pushes the new snapshot onto `undo` (clearing `redo`), and leaves the
role flag as it was. -/
theorem claim_C10_paste_bypasses_readonly (s : ClientState)
    (clip : CanvasObject) (freshId : String)
    (hclip : s.clipboard = some clip) (hres : s.isRestoring = false)
    (hne : s.undoStack.head? ≠
        some (serializeCanvas (s.objects ++ [pasteClone clip freshId]))) :
    paste s freshId =
      ({ s with
          objects := s.objects ++ [pasteClone clip freshId],
          selected := [pasteClone clip freshId],
          undoStack :=
            serializeCanvas (s.objects ++ [pasteClone clip freshId]) ::
              s.undoStack,
          redoStack := [] },
       [⟨s.roomId, .added freshId (serializeObj (pasteClone clip freshId))⟩]) ∧
    (pasteClone clip freshId).id = some freshId ∧
    (pasteClone clip freshId).left = clip.left + 20 ∧
    (pasteClone clip freshId).top = clip.top + 20 ∧
    (paste s freshId).1.isReadOnly = s.isReadOnly := by
  have hpaste : paste s freshId =
      ({ s with
          objects := s.objects ++ [pasteClone clip freshId],
          selected := [pasteClone clip freshId],
          undoStack :=
            serializeCanvas (s.objects ++ [pasteClone clip freshId]) ::
              s.undoStack,
          redoStack := [] },
       [⟨s.roomId,
         .added freshId (serializeObj (pasteClone clip freshId))⟩]) := by
    have hrem : (pasteClone clip freshId).remote = false := rfl
    unfold paste canvasAdd onObjectAdded
    simp only [hclip]
    simp [saveHistory, hres, hne, hrem]
  refine ⟨hpaste, rfl, rfl, rfl, ?_⟩
  rw [hpaste]

/-- Witness for C10: on a read-only client with a clipboard entry, paste
inserts the offset clone with the fresh id, emits `object:added` and
pushes a history snapshot. -/
theorem claim_C10_paste_bypasses_readonly_witness :
    paste roClipState "f1" =
      ({ roClipState with
          objects := [pasteClone rectEx "f1"],
          selected := [pasteClone rectEx "f1"],
          undoStack :=
            serializeCanvas [pasteClone rectEx "f1"] ::
              roClipState.undoStack,
          redoStack := [] },
       [⟨"room1", .added "f1" (serializeObj (pasteClone rectEx "f1"))⟩]) ∧
    roClipState.isReadOnly = true :=
  ⟨(claim_C10_paste_bypasses_readonly roClipState rectEx "f1" rfl rfl
      (by decide)).1, rfl⟩

/-! ## Undo sentinel (C3) -/

theorem undo_preserves_undoStack_ne (s : ClientState)
    (h : s.undoStack ≠ []) : (undo s).1.undoStack ≠ [] := by
  rcases hu : s.undoStack with _ | ⟨c, _ | ⟨pv, rest⟩⟩
  · exact absurd hu h
  · have he : undo s = (s, []) := by unfold undo; rw [hu]
    rw [he, hu]
    simp
  · rw [undo_spec s c pv rest hu]
    simp

theorem redo_preserves_undoStack_ne (s : ClientState)
    (h : s.undoStack ≠ []) : (redo s).1.undoStack ≠ [] := by
  rcases hr : s.redoStack with _ | ⟨n, r⟩
  · have he : redo s = (s, []) := by unfold redo; rw [hr]
    rw [he]
    exact h
  · rw [redo_spec s n r hr]
    simp

/-- Claim C3: on a freshly created document `undo()` is a no-op; from the
one-recorded-mutation configuration (undo stack: snapshot `S` on top of
the initial empty snapshot, empty redo), one `undo()` restores the empty
document and pushes `S` onto `redo`, and one subsequent `redo()` restores
`S`; and under every sequence of `undo()`/`redo()` calls the `undo` stack
never becomes empty. -/
theorem claim_C3_undo_sentinel :
    (∀ (ro : Bool) (tool room : String) (w h : Int),
        undo (initialClient ro tool room w h) =
          (initialClient ro tool room w h, [])) ∧
    (∀ (s : ClientState) (S : Snapshot),
        s.undoStack = [S, serializeCanvas []] → s.redoStack = [] →
        (undo s).1.objects = [] ∧
        (undo s).1.undoStack = [serializeCanvas []] ∧
        (undo s).1.redoStack = [S] ∧
        (redo (undo s).1).1.objects = loadSnap S ∧
        (redo (undo s).1).1.undoStack = [S, serializeCanvas []] ∧
        (redo (undo s).1).1.redoStack = []) ∧
    (∀ (s : ClientState) (ops : List HistOp),
        s.undoStack ≠ [] → (applyHistOps s ops).undoStack ≠ []) := by
  refine ⟨?_, ?_, ?_⟩
  · intro ro tool room w h
    rfl
  · intro s S hu hr
    have h1 := undo_spec s S (serializeCanvas []) [] hu
    have h2 := redo_spec (undo s).1 S s.redoStack (by rw [h1])
    rw [hr, h1] at h2
    simp [hr, loadSnap, serializeCanvas] at h2
    refine ⟨?_, ?_, ?_, ?_, ?_, ?_⟩ <;>
      simp [h1, h2, hr, loadSnap, serializeCanvas]
  · intro s ops
    induction ops generalizing s with
    | nil =>
        intro h
        simpa [applyHistOps] using h
    | cons op t ih =>
        intro h
        have hstep : (match op with
            | HistOp.undoOp => (undo s).1
            | HistOp.redoOp => (redo s).1).undoStack ≠ [] := by
          cases op
          · exact undo_preserves_undoStack_ne s h
          · exact redo_preserves_undoStack_ne s h
        have hrest := ih _ hstep
        simpa [applyHistOps] using hrest

/-- Witness for C3 at concrete inputs: the fresh-document no-op, the
undo/redo round trip from one recorded mutation, and stack non-emptiness
along a concrete call sequence. -/
theorem claim_C3_undo_sentinel_witness :
    undo (initialClient false "pen" "room1" 800 600) =
      (initialClient false "pen" "room1" 800 600, []) ∧
    (undo c3state).1.objects = [] ∧
    (redo (undo c3state).1).1.objects = loadSnap (serializeCanvas [rectEx]) ∧
    (applyHistOps c3state
        [HistOp.undoOp, HistOp.undoOp, HistOp.redoOp]).undoStack ≠ [] :=
  ⟨claim_C3_undo_sentinel.1 false "pen" "room1" 800 600,
   (claim_C3_undo_sentinel.2.1 c3state (serializeCanvas [rectEx]) rfl rfl).1,
   (claim_C3_undo_sentinel.2.1 c3state (serializeCanvas [rectEx])
      rfl rfl).2.2.2.1,
   claim_C3_undo_sentinel.2.2 c3state _ (by decide)⟩

/-! ## Erase-under-cursor (C6) -/

theorem scrubStep_fold_spec (p : Point) :
    ∀ (l : List CanvasObject) (s : ClientState) (evs : List Emission),
      s.activeTool = "eraser" →
      l.Nodup → (∀ o ∈ l, o ∈ s.objects) → s.objects.Nodup →
      (l.foldl (scrubStep p) (s, evs)).1.objects =
          s.objects.filter
            (fun o => !(decide (o ∈ l) && scrubHit p o)) ∧
      (l.foldl (scrubStep p) (s, evs)).2 =
          evs ++ l.flatMap (scrubEmits s.roomId p) := by
  intro l
  induction l with
  | nil =>
      intro s evs htool hnd hsub hobj
      simp
  | cons o t ih =>
      intro s evs htool hnd hsub hobj
      have hot : o ∉ t := (List.nodup_cons.mp hnd).1
      have hndt : t.Nodup := (List.nodup_cons.mp hnd).2
      rw [List.foldl_cons]
      by_cases hhit : scrubHit p o
      · -- the object is erased and its removal broadcast (twice if local)
        have hel : eligible o := by
          have := hhit
          unfold scrubHit at this
          exact (Bool.and_eq_true_iff.mp this).1
        obtain ⟨i, hid⟩ : ∃ i, o.id = some i := by
          have hsome : o.id.isSome := by
            unfold eligible at hel
            exact (Bool.and_eq_true_iff.mp
              (Bool.and_eq_true_iff.mp hel).1).1
          exact Option.isSome_iff_exists.mp hsome
        have hstep : scrubStep p (s, evs) o =
            ((canvasRemove s o).1,
             evs ++ [⟨s.roomId, .removed i⟩] ++ (canvasRemove s o).2) := by
          unfold scrubStep
          simp [hhit, hid]
        rw [hstep]
        have hobjs : (canvasRemove s o).1.objects = s.objects.erase o :=
          canvasRemove_objects s o
        have hsub2 : ∀ x ∈ t, x ∈ (canvasRemove s o).1.objects := by
          intro x hx
          rw [hobjs]
          have hxo : x ≠ o := fun he => hot (he ▸ hx)
          exact (List.mem_erase_of_ne hxo).mpr (hsub x (List.mem_cons_of_mem o hx))
        have hobj2 : (canvasRemove s o).1.objects.Nodup := by
          rw [hobjs]; exact hobj.erase o
        have htool2 : (canvasRemove s o).1.activeTool = "eraser" := by
          rw [canvasRemove_activeTool]; exact htool
        have hih := ih (canvasRemove s o).1
          (evs ++ [⟨s.roomId, .removed i⟩] ++ (canvasRemove s o).2)
          htool2 hndt hsub2 hobj2
        refine ⟨?_, ?_⟩
        · rw [hih.1, hobjs, hobj.erase_eq_filter o, List.filter_filter]
          apply List.filter_congr
          intro x hx
          by_cases hxo : x = o
          · subst hxo
            simp [hhit]
          · simp [hxo, List.mem_cons]
        · rw [hih.2, canvasRemove_roomId]
          have hemit : (canvasRemove s o).2 =
              if o.remote then [] else [⟨s.roomId, .removed i⟩] :=
            canvasRemove_emissions_eraser s o htool i hid
          rw [hemit, List.flatMap_cons]
          cases hrem : o.remote <;>
            simp [scrubEmits, hhit, hid, hrem, List.append_assoc]
      · -- a missed object: nothing removed, nothing emitted
        have hstep : scrubStep p (s, evs) o = (s, evs) := by
          unfold scrubStep
          simp [hhit]
        rw [hstep]
        have hsub2 : ∀ x ∈ t, x ∈ s.objects := fun x hx =>
          hsub x (List.mem_cons_of_mem o hx)
        have hih := ih s evs htool hndt hsub2 hobj
        refine ⟨?_, ?_⟩
        · rw [hih.1]
          apply List.filter_congr
          intro x hx
          by_cases hxo : x = o
          · subst hxo
            simp [hhit]
          · simp [hxo, List.mem_cons]
        · rw [hih.2, List.flatMap_cons]
          simp [scrubEmits, hhit]

/-- Claim C6 counterexample: with three overlapping eligible non-remote
objects under the pointer, one eraser sample does remove all three, but
emits SIX `object:removed` events — each id twice (once from the sample
loop, once from the `object:removed` canvas listener re-broadcast) — not
three. -/
theorem claim_C6_counterexample :
    (handleScrubberMove scrubState 1 p6).1.objects = [] ∧
    (handleScrubberMove scrubState 1 p6).2 =
      [⟨"r6", .removed "c"⟩, ⟨"r6", .removed "c"⟩,
       ⟨"r6", .removed "b"⟩, ⟨"r6", .removed "b"⟩,
       ⟨"r6", .removed "a"⟩, ⟨"r6", .removed "a"⟩] ∧
    ¬(handleScrubberMove scrubState 1 p6).2.length = 3 := by
  decide

/-- Claim C6 as amended: for one eraser movement sample at a point, every
eligible object containing the point — not just the topmost — is removed
from the Object Model in that same sample, and per object the removal
event carrying its id is emitted twice when the object is non-remote
(once by the sample loop, once by the `object:removed` canvas listener)
and once when it is remote-flagged, in top-down order. -/
theorem claim_C6_amended (s : ClientState) (p : Point)
    (htool : s.activeTool = "eraser") (hnd : s.objects.Nodup) :
    (handleScrubberMove s 1 p).1.objects =
        s.objects.filter (fun o => !scrubHit p o) ∧
    (handleScrubberMove s 1 p).2 =
        s.objects.reverse.flatMap (scrubEmits s.roomId p) := by
  unfold handleScrubberMove
  have hdrag : (if (1 : Nat) = 1 then true
      else if (1 : Nat) = 0 then false else s.isEraserDragging) = true := by
    simp
  rw [if_pos htool, hdrag]
  simp only [if_pos]
  have hspec := scrubStep_fold_spec p
    ({ s with isEraserDragging := true }).objects.reverse
    { s with isEraserDragging := true } [] htool
    (by simpa [List.nodup_reverse] using hnd)
    (by intro o ho; simpa using List.mem_reverse.mp (by simpa using ho))
    (by simpa using hnd)
  refine ⟨?_, ?_⟩
  · rw [hspec.1]
    apply List.filter_congr
    intro x hx
    have hxr : decide (x ∈ s.objects.reverse) = true := by
      simp only [List.mem_reverse]
      simpa using hx
    simp at hx
    simp [List.mem_reverse, hx]
  · rw [hspec.2]
    simp

/-- Witness for the amended C6 at the three-object configuration. -/
theorem claim_C6_amended_witness :
    (handleScrubberMove scrubState 1 p6).1.objects =
        scrubState.objects.filter (fun o => !scrubHit p6 o) ∧
    (handleScrubberMove scrubState 1 p6).2 =
        scrubState.objects.reverse.flatMap (scrubEmits scrubState.roomId p6) :=
  claim_C6_amended scrubState p6 rfl (by decide)

/-- Witness for C5 at concrete inputs: a non-read-only member answers the
sync request directed at the joiner, a read-only member stays silent, and
the relay forwards a concrete `sync-state` to exactly its target. -/
theorem claim_C5_sync_responder_policy_witness :
    handleRequestSync freshEx "joiner" =
      [⟨freshEx.roomId, serializeSync freshEx.objects, "joiner"⟩] ∧
    handleRequestSync roState "joiner" = [] ∧
    (relaySyncState relayStEx ⟨"room1", ([] : Snapshot), "joiner"⟩).2 =
      [("joiner", ([] : Snapshot))] :=
  ⟨claim_C5_sync_responder_policy.2.1 freshEx "joiner" rfl,
   claim_C5_sync_responder_policy.2.2.1 roState "joiner" rfl,
   (claim_C5_sync_responder_policy.2.2.2 relayStEx
      ⟨"room1", ([] : Snapshot), "joiner"⟩).2.1⟩
